import Mathlib

/-!
Verification of the reading-plan subsystem of the EOTC Bible backend.

The repository sources give the plan controller (createPlan, getPlanById,
updatePlan, deletePlan, markDayComplete, getPlanProgress) and the streak
update inside logReading.  The pure helpers `distributeReadings` and
`validateRange` live in utility modules whose sources are not included,
so they are modelled from the specification (each such definition is
marked in its doc comment).
-/

namespace EOTC

/-- Static per-book metadata: canonical identifier and chapter count.
The canonical order is the order of the books in the index list. -/
structure BookMeta where
  bookId : String
  chapterCount : Nat
deriving Repr, DecidableEq

/-- The canonical Bible index: an ordered list of books. -/
abbrev BibleIndex := List BookMeta

/-- A contiguous reading assignment inside one book (chapters inclusive). -/
structure ReadingUnit where
  bookId : String
  startChapter : Nat
  endChapter : Nat
deriving Repr, DecidableEq

/-- One element of the distribution engine's output:
a day number together with its reading units. -/
structure DayReadings where
  dayNumber : Nat
  readings : List ReadingUnit
deriving Repr, DecidableEq

/-- Look up a book in the index by its identifier. -/
def findBook (idx : BibleIndex) (b : String) : Option BookMeta :=
  idx.find? (fun m => m.bookId == b)

/-- Canonical rank of a book: its position in the index. -/
def bookOrder (idx : BibleIndex) (b : String) : Option Nat :=
  idx.findIdx? (fun m => m.bookId == b)

/-- All (bookId, chapter) pairs of one book, chapters numbered from 1. -/
def bookChapters (b : BookMeta) : List (String × Nat) :=
  (List.range b.chapterCount).map (fun i => (b.bookId, i + 1))

/-- The flat canonically ordered list of every (bookId, chapter) pair
of the whole index. -/
def allChapters (idx : BibleIndex) : List (String × Nat) :=
  (idx.map bookChapters).flatten

/-- Position of a (book, chapter) pair in the flat canonical sequence. -/
def chapterPos (idx : BibleIndex) (b : String) (c : Nat) : Option Nat :=
  (allChapters idx).findIdx? (fun p => p.1 == b && p.2 == c)

/-- Modelled from the spec: step 1 of the distribution algorithm in
`utils/readingPlanAlgorithm` (file not in the sources).  Enumerate every
chapter of the range in canonical order as a flat ordered sequence of
(bookId, chapterNumber) pairs (the unit sequence). -/
def enumerateRange (idx : BibleIndex) (sb : String) (sc : Nat)
    (eb : String) (ec : Nat) : List (String × Nat) :=
  match chapterPos idx sb sc, chapterPos idx eb ec with
  | some i, some j =>
      if i ≤ j then ((allChapters idx).drop i).take (j + 1 - i) else []
  | _, _ => []

/-- Modelled from the spec: `endChapter` is optional and defaults to the
last chapter of the end book (§4.2 step 2, `utils/bibleData` not in the
sources). -/
def resolveEndChapter (idx : BibleIndex) (eb : String) (ec : Option Nat) :
    Option Nat :=
  match ec with
  | some c => some c
  | none => (findBook idx eb).map (fun m => m.chapterCount)

/-- The unit sequence of a scripture range after resolving the optional
end chapter. -/
def unitSeqOf (idx : BibleIndex) (sb : String) (sc : Nat)
    (eb : String) (ec : Option Nat) : List (String × Nat) :=
  match resolveEndChapter idx eb ec with
  | some e => enumerateRange idx sb sc eb e
  | none => []

/-- Modelled from the spec: §4.2 `validateRange` from `utils/bibleData`
(file not in the sources).  Both books must exist, both chapters must be
within `[1, chapterCount]` of their book, and the start position must not
come after the end position in canonical order. -/
def validateRange (idx : BibleIndex) (sb : String) (sc : Nat)
    (eb : String) (ec : Option Nat) : Bool :=
  match findBook idx sb, findBook idx eb with
  | some bs, some be =>
    let ecr := ec.getD be.chapterCount
    if sc < 1 || bs.chapterCount < sc || ecr < 1 || be.chapterCount < ecr then
      false
    else
      match bookOrder idx sb, bookOrder idx eb with
      | some os, some oe => decide (os < oe) || (os == oe && decide (sc ≤ ecr))
      | _, _ => false
  | _, _ => false

/-- Modelled from the spec: step 4 of the distribution algorithm.  The
bucket sizes: one chapter per day when `days >= total`, otherwise the
first `total % days` days get `total / days + 1` chapters and the
remaining days get `total / days`. -/
def splitSizes (total days : Nat) : List Nat :=
  if total ≤ days then List.replicate total 1
  else
    List.replicate (total % days) (total / days + 1) ++
      List.replicate (days - total % days) (total / days)

/-- Modelled from the spec: step 5, slicing the unit sequence into
buckets of the computed sizes. -/
def sliceBySizes {α : Type} : List Nat → List α → List (List α)
  | [], _ => []
  | n :: ns, xs => xs.take n :: sliceBySizes ns (xs.drop n)

/-- Modelled from the spec: step 5, run-length coalescing of a bucket.
`coalesceFrom u l` extends the open unit `u` while the next pair is the
next chapter of the same book, otherwise emits `u` and opens a new unit. -/
def coalesceFrom : ReadingUnit → List (String × Nat) → List ReadingUnit
  | u, [] => [u]
  | u, (b, c) :: rest =>
    if b = u.bookId ∧ c = u.endChapter + 1 then
      coalesceFrom { u with endChapter := c } rest
    else
      u :: coalesceFrom ⟨b, c, c⟩ rest

/-- Modelled from the spec: coalesce a bucket of (bookId, chapter) pairs
into reading units. -/
def coalesce : List (String × Nat) → List ReadingUnit
  | [] => []
  | (b, c) :: rest => coalesceFrom ⟨b, c, c⟩ rest

/-- Modelled from the spec: step 6, number the buckets contiguously
starting from `s`, coalescing each bucket into reading units. -/
def numberDays (s : Nat) : List (List (String × Nat)) → List DayReadings
  | [] => []
  | b :: bs => ⟨s, coalesce b⟩ :: numberDays (s + 1) bs

/-- Modelled from the spec: `distributeReadings` from
`utils/readingPlanAlgorithm` (file not in the sources; §4.3).  Enumerates
the range, returns the empty list on an empty range or non-positive day
count, otherwise slices the unit sequence into `splitSizes` buckets and
coalesces each bucket into a numbered day. -/
def distributeReadings (idx : BibleIndex) (sb : String) (sc : Nat)
    (eb : String) (ec : Option Nat) (days : Nat) : List DayReadings :=
  if (unitSeqOf idx sb sc eb ec).length = 0 ∨ days = 0 then []
  else
    numberDays 1
      (sliceBySizes (splitSizes (unitSeqOf idx sb sc eb ec).length days)
        (unitSeqOf idx sb sc eb ec))

/-- The individual chapters covered by one reading unit. -/
def unitChapters (u : ReadingUnit) : List (String × Nat) :=
  (List.range (u.endChapter + 1 - u.startChapter)).map
    (fun i => (u.bookId, u.startChapter + i))

/-- The individual chapters covered by one output day. -/
def dayChapters (d : DayReadings) : List (String × Nat) :=
  (d.readings.map unitChapters).flatten

/-- One persisted day of a plan (controller field set: day number,
calendar date in milliseconds since the epoch, reading units, completion
flag and completion timestamp). -/
structure DailyReading where
  dayNumber : Nat
  date : Int
  readings : List ReadingUnit
  isCompleted : Bool
  completedAt : Option Int
deriving Repr, DecidableEq

/-- A persisted reading plan, with the fields the controller stores and
reads.  Users and plan ids are modelled as naturals; document ids are
kept outside the record (the database is an association list). -/
structure ReadingPlan where
  userId : Nat
  name : String
  startBook : String
  startChapter : Nat
  endBook : String
  endChapter : Option Nat
  startDate : Int
  durationInDays : Nat
  dailyReadings : List DailyReading
  isPublic : Bool
  sharedWith : List Nat
  status : String
deriving Repr, DecidableEq

/-- The document store: plan id paired with the plan document. -/
abbrev PlanDB := List (Nat × ReadingPlan)

/-- An HTTP-level error: status code and message. -/
structure ApiErr where
  code : Nat
  msg : String
deriving Repr, DecidableEq

/-- The body of a plan-creation request (controller interface
`CreatePlanRequest`). -/
structure CreatePlanRequest where
  name : String
  startBook : String
  startChapter : Nat
  endBook : String
  endChapter : Option Nat
  startDate : Int
  durationInDays : Nat
  isPublic : Bool
  sharedWith : List Nat
deriving Repr, DecidableEq

/-- The `createPlan` controller: reject missing required fields (in the
source a falsy check, so `durationInDays = 0` and empty strings are
rejected), validate the range, run the distribution engine, reject an
empty distribution, otherwise build the plan.  Each day's date is
`startDate + (dayNumber - 1) * 86400000` milliseconds.  The stored
`durationInDays` is the caller's requested value.  The `status` default
`active` is modelled from the spec (the schema file is not in the
sources). -/
def createPlan (idx : BibleIndex) (uid : Nat) (r : CreatePlanRequest) :
    Option ReadingPlan :=
  if r.name == "" || r.startBook == "" || r.endBook == "" ||
      r.durationInDays == 0 then none
  else if validateRange idx r.startBook r.startChapter r.endBook
      r.endChapter = false then none
  else if (distributeReadings idx r.startBook r.startChapter r.endBook
      r.endChapter r.durationInDays).length = 0 then none
  else some
      { userId := uid
        name := r.name.trim
        startBook := r.startBook
        startChapter := r.startChapter
        endBook := r.endBook
        endChapter := r.endChapter
        startDate := r.startDate
        durationInDays := r.durationInDays
        dailyReadings := (distributeReadings idx r.startBook r.startChapter
            r.endBook r.endChapter r.durationInDays).map (fun d =>
          { dayNumber := d.dayNumber
            date := r.startDate + ((d.dayNumber : Int) - 1) * 86400000
            readings := d.readings
            isCompleted := false
            completedAt := none })
        isPublic := r.isPublic
        sharedWith := r.sharedWith
        status := "active" }

/-- The `getPlanById` controller: look the plan up by id alone, then
grant access to the owner, to anyone when the plan is public, and to
listed shared users; otherwise 403. -/
def getPlanById (db : PlanDB) (uid id : Nat) : Except ApiErr ReadingPlan :=
  match db.find? (fun e => e.1 == id) with
  | none => .error ⟨404, "Plan not found"⟩
  | some e =>
    if e.2.userId == uid || e.2.isPublic || e.2.sharedWith.contains uid then
      .ok e.2
    else .error ⟨403, "Access denied"⟩

/-- Aggregate progress data returned by `getPlanProgress` (percentages
as exact rationals; the source rounds with `Math.round`). -/
structure PlanProgress where
  totalDays : Nat
  completedDays : Nat
  percentDays : ℚ
  totalChapters : Nat
  completedChapters : Nat
  percentChapters : ℚ
  status : String
deriving Repr, DecidableEq

/-- `Math.round` on the nonnegative rationals used here: floor of
`q + 1/2`. -/
def mathRound (q : ℚ) : Int :=
  Int.floor (q + 1 / 2)

/-- Chapters counted for one day by the progress endpoint:
sum over readings of `endChapter - startChapter + 1`. -/
def dayChapterCount (d : DailyReading) : Nat :=
  (d.readings.map (fun r => r.endChapter - r.startChapter + 1)).sum

/-- The progress computation of the `getPlanProgress` controller:
day-based and chapter-based completion percentages rounded to two
decimal places, plus the stored status. -/
def planProgressData (p : ReadingPlan) : PlanProgress :=
  let totalDays := p.durationInDays
  let completedDays := (p.dailyReadings.filter (fun d => d.isCompleted)).length
  let percentage : ℚ :=
    if 0 < totalDays then (completedDays : ℚ) / (totalDays : ℚ) * 100 else 0
  let totalChapters := (p.dailyReadings.map dayChapterCount).sum
  let completedChapters :=
    ((p.dailyReadings.filter (fun d => d.isCompleted)).map dayChapterCount).sum
  { totalDays := totalDays
    completedDays := completedDays
    percentDays := (mathRound (percentage * 100) : ℚ) / 100
    totalChapters := totalChapters
    completedChapters := completedChapters
    percentChapters :=
      if 0 < totalChapters then
        (mathRound ((completedChapters : ℚ) / (totalChapters : ℚ) * 10000) : ℚ)
          / 100
      else 0
    status := p.status }

/-- The `getPlanProgress` controller: look the plan up by id alone, the
owner gets the progress data, every other requester gets 403. -/
def getPlanProgress (db : PlanDB) (uid id : Nat) : Except ApiErr PlanProgress :=
  match db.find? (fun e => e.1 == id) with
  | none => .error ⟨404, "Plan not found"⟩
  | some e =>
    if e.2.userId == uid then .ok (planProgressData e.2)
    else .error ⟨403, "Access denied"⟩

/-- The update body of the `updatePlan` controller (name, status,
visibility). -/
structure PlanUpdates where
  name : Option String
  status : Option String
  isPublic : Option Bool
deriving Repr, DecidableEq

/-- Field updates of `updatePlan`: `if (updates.name)` in the source is
a truthiness check, so an empty string is ignored; same for `status`;
`isPublic` is applied whenever present (`!== undefined`). -/
def applyUpdates (p : ReadingPlan) (u : PlanUpdates) : ReadingPlan :=
  let p1 := match u.name with
    | some s => if s == "" then p else { p with name := s }
    | none => p
  let p2 := match u.status with
    | some s => if s == "" then p1 else { p1 with status := s }
    | none => p1
  match u.isPublic with
  | some b => { p2 with isPublic := b }
  | none => p2

/-- Replace the document stored under `id`. -/
def replaceById (db : PlanDB) (id : Nat) (p : ReadingPlan) : PlanDB :=
  db.map (fun e => if e.1 == id then (e.1, p) else e)

/-- The ownership-scoped lookup `findOne({ _id: id, userId: uid })` used
by every mutation endpoint. -/
def findOwned (db : PlanDB) (id uid : Nat) : Option (Nat × ReadingPlan) :=
  db.find? (fun e => e.1 == id && e.2.userId == uid)

/-- The `updatePlan` controller: ownership-scoped lookup, 404 when it
finds nothing, otherwise apply the updates and save. -/
def updatePlan (db : PlanDB) (uid id : Nat) (u : PlanUpdates) :
    PlanDB × Except ApiErr ReadingPlan :=
  match findOwned db id uid with
  | none => (db, .error ⟨404, "Plan not found or access denied"⟩)
  | some e =>
    let p := applyUpdates e.2 u
    (replaceById db id p, .ok p)

/-- The `deletePlan` controller: `findOneAndDelete({ _id, userId })`,
404 when it matches nothing. -/
def deletePlan (db : PlanDB) (uid id : Nat) :
    PlanDB × Except ApiErr ReadingPlan :=
  match findOwned db id uid with
  | none => (db, .error ⟨404, "Plan not found or access denied"⟩)
  | some e =>
    (db.eraseP (fun x => x.1 == id && x.2.userId == uid), .ok e.2)

/-- Mark one day complete: set `isCompleted` and stamp `completedAt`. -/
def completeDay (d : DailyReading) (now : Int) : DailyReading :=
  { d with isCompleted := true, completedAt := some now }

/-- Update the first day whose `dayNumber` matches (the source mutates
the result of `Array.prototype.find`). -/
def markFirst : List DailyReading → Nat → Int → List DailyReading
  | [], _, _ => []
  | d :: ds, n, now =>
    if d.dayNumber = n then completeDay d now :: ds
    else d :: markFirst ds n now

/-- The plan-level effect of `markDayComplete` once the day exists:
complete the day, then set `status` to `completed` when every day of the
updated list is complete. -/
def markDayOnPlan (p : ReadingPlan) (n : Nat) (now : Int) : ReadingPlan :=
  let updated := markFirst p.dailyReadings n now
  { p with
    dailyReadings := updated
    status :=
      if updated.all (fun d => d.isCompleted) then "completed" else p.status }

/-- The `markDayComplete` controller: ownership-scoped lookup (404 "Plan
not found" when it misses), 404 "Day not found in plan" when the plan has
no day with the requested number, otherwise complete the day and save. -/
def markDayComplete (db : PlanDB) (uid id : Nat) (n : Nat) (now : Int) :
    PlanDB × Except ApiErr ReadingPlan :=
  match findOwned db id uid with
  | none => (db, .error ⟨404, "Plan not found"⟩)
  | some e =>
    if e.2.dailyReadings.any (fun d => d.dayNumber == n) then
      let p := markDayOnPlan e.2 n now
      (replaceById db id p, .ok p)
    else (db, .error ⟨404, "Day not found in plan"⟩)

/-- A user's reading streak (`user.streak`); dates are start-of-day
timestamps in milliseconds. -/
structure Streak where
  current : Nat
  longest : Nat
  lastDate : Option Int
deriving Repr, DecidableEq

/-- The streak-update step of the `logReading` controller.  Branches of
the source: no previous date starts the streak at 1; a read already
logged today changes nothing; a read yesterday increments; a read before
yesterday resets to 1; a future `lastDate` falls through every branch
and leaves the counters unchanged.  `lastDate` is set to today in every
case. -/
def updateStreak (s : Streak) (today : Int) : Streak :=
  match s.lastDate with
  | none => { current := 1, longest := max s.longest 1, lastDate := some today }
  | some last =>
    if last = today then { s with lastDate := some today }
    else if last = today - 86400000 then
      { current := s.current + 1
        longest := max s.longest (s.current + 1)
        lastDate := some today }
    else if last < today - 86400000 then
      { current := 1, longest := max s.longest 1, lastDate := some today }
    else { s with lastDate := some today }

/-! ### Lemmas about the distribution engine -/

theorem unitChapters_single (b : String) (c : Nat) :
    unitChapters ⟨b, c, c⟩ = [(b, c)] := by
  simp [unitChapters, Nat.add_sub_cancel_left, List.range_succ]

theorem unitChapters_snoc (b : String) (s e : Nat) (h : s ≤ e + 1) :
    unitChapters ⟨b, s, e + 1⟩ = unitChapters ⟨b, s, e⟩ ++ [(b, e + 1)] := by
  unfold unitChapters
  simp only
  have h1 : e + 1 + 1 - s = (e + 1 - s) + 1 := by omega
  have h2 : s + (e + 1 - s) = e + 1 := by omega
  rw [h1, List.range_succ, List.map_append]
  simp [h2]

theorem coalesceFrom_chapters (l : List (String × Nat)) (u : ReadingUnit)
    (h : u.startChapter ≤ u.endChapter) :
    ((coalesceFrom u l).map unitChapters).flatten = unitChapters u ++ l := by
  induction l generalizing u with
  | nil => simp [coalesceFrom]
  | cons p rest ih =>
    obtain ⟨b, c⟩ := p
    rw [coalesceFrom]
    by_cases hbc : b = u.bookId ∧ c = u.endChapter + 1
    · rw [if_pos hbc]
      obtain ⟨hb, hc⟩ := hbc
      have h2 : u.startChapter ≤ c := by omega
      rw [ih { u with endChapter := c } h2]
      have h3 : unitChapters { u with endChapter := c } =
          unitChapters u ++ [(u.bookId, c)] := by
        subst hc
        have := unitChapters_snoc u.bookId u.startChapter u.endChapter
          (by omega)
        simpa using this
      rw [h3]
      simp [hb, hc]
    · rw [if_neg hbc]
      simp only [List.map_cons, List.flatten_cons]
      rw [ih ⟨b, c, c⟩ (le_refl c), unitChapters_single]
      simp

theorem coalesce_chapters (l : List (String × Nat)) :
    ((coalesce l).map unitChapters).flatten = l := by
  cases l with
  | nil => rfl
  | cons p rest =>
    obtain ⟨b, c⟩ := p
    rw [coalesce, coalesceFrom_chapters rest ⟨b, c, c⟩ (le_refl c),
      unitChapters_single]
    rfl

theorem numberDays_chapters (bs : List (List (String × Nat))) (s : Nat) :
    ((numberDays s bs).map dayChapters).flatten = bs.flatten := by
  induction bs generalizing s with
  | nil => rfl
  | cons b bs ih =>
    simp only [numberDays, List.map_cons, List.flatten_cons, ih]
    rw [dayChapters, coalesce_chapters]

theorem numberDays_length (bs : List (List (String × Nat))) (s : Nat) :
    (numberDays s bs).length = bs.length := by
  induction bs generalizing s with
  | nil => rfl
  | cons b bs ih => simp [numberDays, ih]

theorem numberDays_dayNumbers (bs : List (List (String × Nat))) (s : Nat) :
    (numberDays s bs).map (fun d => d.dayNumber) = List.range' s bs.length := by
  induction bs generalizing s with
  | nil => rfl
  | cons b bs ih => simp [numberDays, ih, List.range'_succ]

theorem numberDays_counts (bs : List (List (String × Nat))) (s : Nat) :
    (numberDays s bs).map (fun d => (dayChapters d).length) =
      bs.map List.length := by
  induction bs generalizing s with
  | nil => rfl
  | cons b bs ih =>
    simp only [numberDays, List.map_cons, ih]
    have : dayChapters ⟨s, coalesce b⟩ = b := coalesce_chapters b
    rw [this]

theorem sliceBySizes_flatten {α : Type} (ns : List Nat) (xs : List α)
    (h : ns.sum = xs.length) : (sliceBySizes ns xs).flatten = xs := by
  induction ns generalizing xs with
  | nil =>
    simp only [List.sum_nil] at h
    simp [sliceBySizes, (List.eq_nil_of_length_eq_zero h.symm)]
  | cons n ns ih =>
    simp only [List.sum_cons] at h
    simp only [sliceBySizes, List.flatten_cons]
    rw [ih (xs.drop n) (by simp [List.length_drop]; omega)]
    exact List.take_append_drop n xs

theorem sliceBySizes_length {α : Type} (ns : List Nat) (xs : List α) :
    (sliceBySizes ns xs).length = ns.length := by
  induction ns generalizing xs with
  | nil => rfl
  | cons n ns ih => simp [sliceBySizes, ih]

theorem sliceBySizes_map_length {α : Type} (ns : List Nat) (xs : List α)
    (h : ns.sum ≤ xs.length) :
    (sliceBySizes ns xs).map List.length = ns := by
  induction ns generalizing xs with
  | nil => rfl
  | cons n ns ih =>
    simp only [List.sum_cons] at h
    simp only [sliceBySizes, List.map_cons]
    rw [List.length_take, ih (xs.drop n) (by simp [List.length_drop]; omega)]
    congr 1
    omega

theorem splitSizes_sum (T d : Nat) (hd : 0 < d) : (splitSizes T d).sum = T := by
  unfold splitSizes
  by_cases h : T ≤ d
  · simp [h, List.sum_replicate]
  · simp only [h, if_false, List.sum_append, List.sum_replicate, smul_eq_mul]
    have h1 : T % d < d := Nat.mod_lt _ hd
    have h2 : d * (T / d) + T % d = T := Nat.div_add_mod T d
    have h3 : (T % d) * (T / d) ≤ d * (T / d) :=
      Nat.mul_le_mul_right _ (le_of_lt h1)
    rw [Nat.mul_add, Nat.mul_one, Nat.sub_mul]
    have key : ∀ a bb c t : Nat, a ≤ bb → bb + c = t →
        a + c + (bb - a) = t := by intros; omega
    exact key _ _ _ _ h3 h2

theorem splitSizes_length (T d : Nat) (hd : 0 < d) :
    (splitSizes T d).length = min T d := by
  unfold splitSizes
  by_cases h : T ≤ d
  · simp [h, Nat.min_eq_left h]
  · have h1 : T % d < d := Nat.mod_lt _ hd
    simp only [h, if_false, List.length_append, List.length_replicate]
    omega

theorem distributeReadings_length (idx : BibleIndex) (sb : String) (sc : Nat)
    (eb : String) (ec : Option Nat) (days : Nat) (hd : days ≠ 0)
    (hT : (unitSeqOf idx sb sc eb ec).length ≠ 0) :
    (distributeReadings idx sb sc eb ec days).length =
      min days (unitSeqOf idx sb sc eb ec).length := by
  unfold distributeReadings
  rw [if_neg (by tauto)]
  rw [numberDays_length, sliceBySizes_length,
    splitSizes_length _ _ (Nat.pos_of_ne_zero hd), Nat.min_comm]

/-- A small fixture index used to instantiate the universally quantified
theorems at concrete inputs. -/
def idx2 : BibleIndex := [⟨"Genesis", 2⟩, ⟨"Exodus", 3⟩]

/-- Claim C1: for every valid scripture range and every day count in
`[1, totalChapters]`, the chapters of all `ReadingUnit`s across all days
of `distributeReadings`, concatenated in output order, are exactly the
canonically ordered chapter sequence of the range — every chapter exactly
once, none missing, none duplicated. -/
theorem distribute_coverage (idx : BibleIndex) (sb : String) (sc : Nat)
    (eb : String) (ec : Option Nat) (days : Nat)
    (hv : validateRange idx sb sc eb ec = true)
    (h1 : 1 ≤ days) (h2 : days ≤ (unitSeqOf idx sb sc eb ec).length) :
    ((distributeReadings idx sb sc eb ec days).map dayChapters).flatten =
      unitSeqOf idx sb sc eb ec := by
  have hT : (unitSeqOf idx sb sc eb ec).length ≠ 0 := by omega
  unfold distributeReadings
  rw [if_neg (by omega)]
  rw [numberDays_chapters, sliceBySizes_flatten]
  exact splitSizes_sum _ _ (by omega)

/-- Witness for C1: the fixture range Genesis 1 – Exodus 2 (4 chapters)
distributed over 3 days. -/
theorem distribute_coverage_witness :
    ((distributeReadings idx2 "Genesis" 1 "Exodus" (some 2) 3).map
        dayChapters).flatten =
      unitSeqOf idx2 "Genesis" 1 "Exodus" (some 2) :=
  distribute_coverage idx2 "Genesis" 1 "Exodus" (some 2) 3 (by decide)
    (by decide) (by decide)

/-- Claim C3: for every valid range with `totalChapters` chapters and every
`days > totalChapters`, the engine returns exactly `totalChapters` days
and every day covers exactly one chapter. -/
theorem distribute_capping (idx : BibleIndex) (sb : String) (sc : Nat)
    (eb : String) (ec : Option Nat) (days : Nat)
    (hv : validateRange idx sb sc eb ec = true)
    (h : (unitSeqOf idx sb sc eb ec).length < days) :
    (distributeReadings idx sb sc eb ec days).length =
        (unitSeqOf idx sb sc eb ec).length ∧
      (distributeReadings idx sb sc eb ec days).map
          (fun d => (dayChapters d).length) =
        List.replicate (unitSeqOf idx sb sc eb ec).length 1 := by
  by_cases hT : (unitSeqOf idx sb sc eb ec).length = 0
  · constructor
    · unfold distributeReadings
      rw [if_pos (Or.inl hT), hT]
      rfl
    · unfold distributeReadings
      rw [if_pos (Or.inl hT), hT]
      rfl
  · have hd : days ≠ 0 := by omega
    constructor
    · rw [distributeReadings_length _ _ _ _ _ _ hd hT]
      omega
    · unfold distributeReadings
      rw [if_neg (by tauto)]
      rw [numberDays_counts]
      have hsplit : splitSizes (unitSeqOf idx sb sc eb ec).length days =
          List.replicate (unitSeqOf idx sb sc eb ec).length 1 := by
        unfold splitSizes
        rw [if_pos (by omega)]
      rw [sliceBySizes_map_length, hsplit]
      rw [hsplit]
      simp [List.sum_replicate]

/-- Witness for C3: the fixture range Genesis 1 – Exodus 2 (4 chapters)
with 10 requested days. -/
theorem distribute_capping_witness :
    (distributeReadings idx2 "Genesis" 1 "Exodus" (some 2) 10).length =
        (unitSeqOf idx2 "Genesis" 1 "Exodus" (some 2)).length ∧
      (distributeReadings idx2 "Genesis" 1 "Exodus" (some 2) 10).map
          (fun d => (dayChapters d).length) =
        List.replicate (unitSeqOf idx2 "Genesis" 1 "Exodus" (some 2)).length
          1 :=
  distribute_capping idx2 "Genesis" 1 "Exodus" (some 2) 10 (by decide)
    (by decide)

/-- Claim C4: for every valid range and every `0 < days < totalChapters`, the
engine outputs exactly `days` days whose chapter counts are, in order,
`totalChapters % days` copies of `totalChapters / days + 1` followed by
the remaining `days - totalChapters % days` copies of
`totalChapters / days` — so exactly the remainder many days carry the
larger count and they occur first. -/
theorem distribute_remainder_bias (idx : BibleIndex) (sb : String) (sc : Nat)
    (eb : String) (ec : Option Nat) (days : Nat)
    (hv : validateRange idx sb sc eb ec = true) (h0 : 0 < days)
    (h : days < (unitSeqOf idx sb sc eb ec).length) :
    (distributeReadings idx sb sc eb ec days).length = days ∧
      (distributeReadings idx sb sc eb ec days).map
          (fun d => (dayChapters d).length) =
        List.replicate ((unitSeqOf idx sb sc eb ec).length % days)
            ((unitSeqOf idx sb sc eb ec).length / days + 1) ++
          List.replicate
            (days - (unitSeqOf idx sb sc eb ec).length % days)
            ((unitSeqOf idx sb sc eb ec).length / days) := by
  have hT : (unitSeqOf idx sb sc eb ec).length ≠ 0 := by omega
  constructor
  · rw [distributeReadings_length _ _ _ _ _ _ (by omega) hT]
    omega
  · unfold distributeReadings
    rw [if_neg (by omega)]
    rw [numberDays_counts, sliceBySizes_map_length _ _
      (le_of_eq (splitSizes_sum _ _ h0))]
    unfold splitSizes
    rw [if_neg (by omega)]

/-- Witness for C4: the fixture range Genesis 1 – Exodus 2 (4 chapters)
over 3 days; 4 % 3 = 1 day of 2 chapters first, then 2 days of 1. -/
theorem distribute_remainder_bias_witness :
    (distributeReadings idx2 "Genesis" 1 "Exodus" (some 2) 3).length = 3 ∧
      (distributeReadings idx2 "Genesis" 1 "Exodus" (some 2) 3).map
          (fun d => (dayChapters d).length) =
        List.replicate ((unitSeqOf idx2 "Genesis" 1 "Exodus" (some 2)).length
              % 3)
            ((unitSeqOf idx2 "Genesis" 1 "Exodus" (some 2)).length / 3 + 1) ++
          List.replicate
            (3 - (unitSeqOf idx2 "Genesis" 1 "Exodus" (some 2)).length % 3)
            ((unitSeqOf idx2 "Genesis" 1 "Exodus" (some 2)).length / 3) :=
  distribute_remainder_bias idx2 "Genesis" 1 "Exodus" (some 2) 3 (by decide)
    (by decide) (by decide)

/-! ### Lemmas about createPlan -/

theorem distributeReadings_dayNumbers (idx : BibleIndex) (sb : String)
    (sc : Nat) (eb : String) (ec : Option Nat) (days : Nat) :
    (distributeReadings idx sb sc eb ec days).map (fun d => d.dayNumber) =
      List.range' 1 (distributeReadings idx sb sc eb ec days).length := by
  unfold distributeReadings
  split
  · rfl
  · rw [numberDays_dayNumbers, numberDays_length]

theorem distributeReadings_ne_nil_inv (idx : BibleIndex) (sb : String)
    (sc : Nat) (eb : String) (ec : Option Nat) (days : Nat)
    (h : (distributeReadings idx sb sc eb ec days).length ≠ 0) :
    (unitSeqOf idx sb sc eb ec).length ≠ 0 ∧ days ≠ 0 := by
  constructor
  · intro h0
    apply h
    unfold distributeReadings
    rw [if_pos (Or.inl h0)]
    rfl
  · intro h0
    apply h
    unfold distributeReadings
    rw [if_pos (Or.inr h0)]
    rfl

theorem createPlan_inv (idx : BibleIndex) (uid : Nat) (r : CreatePlanRequest)
    (p : ReadingPlan) (h : createPlan idx uid r = some p) :
    r.durationInDays ≠ 0 ∧
      (distributeReadings idx r.startBook r.startChapter r.endBook
          r.endChapter r.durationInDays).length ≠ 0 ∧
      p = { userId := uid
            name := r.name.trim
            startBook := r.startBook
            startChapter := r.startChapter
            endBook := r.endBook
            endChapter := r.endChapter
            startDate := r.startDate
            durationInDays := r.durationInDays
            dailyReadings := (distributeReadings idx r.startBook
                r.startChapter r.endBook r.endChapter r.durationInDays).map
              (fun d =>
                { dayNumber := d.dayNumber
                  date := r.startDate + ((d.dayNumber : Int) - 1) * 86400000
                  readings := d.readings
                  isCompleted := false
                  completedAt := none })
            isPublic := r.isPublic
            sharedWith := r.sharedWith
            status := "active" } := by
  unfold createPlan at h
  split at h
  · exact absurd h (by simp)
  · split at h
    · exact absurd h (by simp)
    · rename_i hfields hvalid
      rw [Bool.or_eq_true, Bool.or_eq_true, Bool.or_eq_true] at hfields
      push_neg at hfields
      split at h
      · exact absurd h (by simp)
      · rename_i hdist
        refine ⟨?_, hdist, ?_⟩
        · intro h0
          apply hfields.2
          simpa using h0
        · injection h with h2
          exact h2.symm

/-- A creation request over the fixture index asking for more days (5)
than the range holds chapters (2). -/
def req2 : CreatePlanRequest :=
  { name := "Genesis in five days", startBook := "Genesis", startChapter := 1,
    endBook := "Genesis", endChapter := some 2, startDate := 0,
    durationInDays := 5, isPublic := false, sharedWith := [] }

/-- Fallback plan document, used only to name the concretely created
plan inside closed witness statements. -/
def dummyPlan : ReadingPlan :=
  { userId := 0, name := "", startBook := "", startChapter := 0,
    endBook := "", endChapter := none, startDate := 0, durationInDays := 0,
    dailyReadings := [], isPublic := false, sharedWith := [], status := "" }

/-- Fallback daily reading, used only inside closed witness statements. -/
def dummyDay : DailyReading :=
  { dayNumber := 0, date := 0, readings := [], isCompleted := false,
    completedAt := none }

/-- Claim C2 counterexample: `createPlan` persists the caller's requested
`durationInDays` (5) while the engine caps `dailyReadings` at the two
available chapters, so the stored field and the sequence length differ:
the created plan has `dailyReadings.length = 2` but `durationInDays = 5`. -/
theorem createPlan_day_count_cex :
    (createPlan idx2 7 req2).map
        (fun p => (p.dailyReadings.length, p.durationInDays)) =
      some (2, 5) := by decide

/-- Claim C2 (amended): every plan persisted by `createPlan` stores the
caller's requested `durationInDays` unchanged, while its `dailyReadings`
sequence has length `min durationInDays totalChapters` with day numbers
`1..length` contiguous without duplicates or gaps; the length equals the
stored `durationInDays` exactly when the request does not exceed the
chapter count of the range. -/
theorem createPlan_day_count (idx : BibleIndex) (uid : Nat)
    (r : CreatePlanRequest) (p : ReadingPlan)
    (h : createPlan idx uid r = some p) :
    p.durationInDays = r.durationInDays ∧
      p.dailyReadings.length =
        min r.durationInDays
          (unitSeqOf idx r.startBook r.startChapter r.endBook
            r.endChapter).length ∧
      p.dailyReadings.map (fun d => d.dayNumber) =
        List.range' 1 p.dailyReadings.length ∧
      (p.dailyReadings.length = p.durationInDays ↔
        r.durationInDays ≤
          (unitSeqOf idx r.startBook r.startChapter r.endBook
            r.endChapter).length) := by
  obtain ⟨hdur, hdist, rfl⟩ := createPlan_inv idx uid r p h
  obtain ⟨hT, -⟩ := distributeReadings_ne_nil_inv _ _ _ _ _ _ hdist
  have hlen := distributeReadings_length idx r.startBook r.startChapter
    r.endBook r.endChapter r.durationInDays hdur hT
  refine ⟨rfl, ?_, ?_, ?_⟩
  · simpa using hlen
  · simp only [List.map_map, List.length_map]
    have hc : ((fun d : DailyReading => d.dayNumber) ∘ fun d : DayReadings =>
        ({ dayNumber := d.dayNumber
           date := r.startDate + ((d.dayNumber : Int) - 1) * 86400000
           readings := d.readings
           isCompleted := false
           completedAt := none } : DailyReading)) =
        fun d : DayReadings => d.dayNumber := rfl
    rw [hc, distributeReadings_dayNumbers]
  · simp only [List.length_map]
    rw [hlen]
    exact min_eq_left_iff

/-- Witness for C2's amended theorem: the plan concretely created from
`req2` over the fixture index. -/
theorem createPlan_day_count_witness :
    ((createPlan idx2 7 req2).getD dummyPlan).durationInDays =
        req2.durationInDays ∧
      ((createPlan idx2 7 req2).getD dummyPlan).dailyReadings.length =
        min req2.durationInDays
          (unitSeqOf idx2 req2.startBook req2.startChapter req2.endBook
            req2.endChapter).length ∧
      ((createPlan idx2 7 req2).getD dummyPlan).dailyReadings.map
          (fun d => d.dayNumber) =
        List.range' 1
          ((createPlan idx2 7 req2).getD dummyPlan).dailyReadings.length ∧
      (((createPlan idx2 7 req2).getD dummyPlan).dailyReadings.length =
          ((createPlan idx2 7 req2).getD dummyPlan).durationInDays ↔
        req2.durationInDays ≤
          (unitSeqOf idx2 req2.startBook req2.startChapter req2.endBook
            req2.endChapter).length) :=
  createPlan_day_count idx2 7 req2 _ rfl

/-- Claim C7: every day of a plan persisted by `createPlan` is dated
`startDate + (dayNumber - 1)` days, in milliseconds. -/
theorem createPlan_dates (idx : BibleIndex) (uid : Nat)
    (r : CreatePlanRequest) (p : ReadingPlan)
    (h : createPlan idx uid r = some p) :
    ∀ d ∈ p.dailyReadings,
      d.date = p.startDate + ((d.dayNumber : Int) - 1) * 86400000 := by
  obtain ⟨-, -, rfl⟩ := createPlan_inv idx uid r p h
  intro d hd
  simp only [List.mem_map] at hd
  obtain ⟨d0, -, rfl⟩ := hd
  rfl

/-- Witness for C7: the first day of the plan concretely created from
`req2` is dated `startDate + 0` days. -/
theorem createPlan_dates_witness :
    (((createPlan idx2 7 req2).getD dummyPlan).dailyReadings.getD 0
          dummyDay).date =
      ((createPlan idx2 7 req2).getD dummyPlan).startDate +
        ((((((createPlan idx2 7 req2).getD dummyPlan).dailyReadings.getD 0
            dummyDay).dayNumber : Nat) : Int) - 1) * 86400000 :=
  createPlan_dates idx2 7 req2 _ rfl _ (by decide)

/-! ### Access control: getPlanById versus getPlanProgress -/

/-- A concrete public plan owned by user 3, used to instantiate the
access-control theorems. -/
def planPub : ReadingPlan :=
  { userId := 3, name := "Shared Genesis", startBook := "Genesis",
    startChapter := 1, endBook := "Genesis", endChapter := some 2,
    startDate := 0, durationInDays := 2,
    dailyReadings :=
      [⟨1, 0, [⟨"Genesis", 1, 1⟩], false, none⟩,
       ⟨2, 86400000, [⟨"Genesis", 2, 2⟩], false, none⟩],
    isPublic := true, sharedWith := [], status := "active" }

/-- Claim C5 counterexample: a public plan owned by user 3, requested by user
9.  `getPlanById` grants access, but `getPlanProgress` answers 403, so a
public or shared non-owner is not granted read access to the progress. -/
theorem shared_progress_denied_cex :
    planPub.isPublic = true ∧ planPub.userId ≠ 9 ∧
      getPlanById [(1, planPub)] 9 1 = .ok planPub ∧
      getPlanProgress [(1, planPub)] 9 1 =
        .error ⟨403, "Access denied"⟩ :=
  ⟨rfl, by decide, rfl, rfl⟩

/-- Claim C5 (amended): a plan with `isPublic = true`, or with the requester
in `sharedWith`, grants a non-owner read access to the plan through
`getPlanById`; the progress endpoint `getPlanProgress` is owner-only and
answers 403 to every non-owner, public or shared notwithstanding. -/
theorem shared_read_access (db : PlanDB) (uid id : Nat) (p : ReadingPlan)
    (hfind : db.find? (fun e => e.1 == id) = some (id, p))
    (hacc : p.isPublic = true ∨ uid ∈ p.sharedWith)
    (hown : p.userId ≠ uid) :
    getPlanById db uid id = .ok p ∧
      getPlanProgress db uid id = .error ⟨403, "Access denied"⟩ := by
  constructor
  · rcases hacc with h | h
    · simp [getPlanById, hfind, h]
    · simp [getPlanById, hfind, h]
  · simp [getPlanProgress, hfind, hown]

/-- Witness for C5's amended theorem: the concrete public plan. -/
theorem shared_read_access_witness :
    getPlanById [(1, planPub)] 9 1 = .ok planPub ∧
      getPlanProgress [(1, planPub)] 9 1 = .error ⟨403, "Access denied"⟩ :=
  shared_read_access [(1, planPub)] 9 1 planPub rfl (Or.inl rfl) (by decide)

/-! ### Lemmas about markDayComplete -/

theorem map_update_id (l : List DailyReading) (n : Nat) (now : Int)
    (h : ∀ e ∈ l, e.dayNumber ≠ n) :
    l.map (fun e => if e.dayNumber = n then completeDay e now else e) = l := by
  induction l with
  | nil => rfl
  | cons a as ih =>
    rw [List.map_cons, if_neg (h a (.head _)),
      ih (fun e he => h e (.tail _ he))]

theorem markFirst_eq_map (l : List DailyReading) (n : Nat) (now : Int)
    (hnd : (l.map (fun d => d.dayNumber)).Nodup) :
    markFirst l n now =
      l.map (fun e => if e.dayNumber = n then completeDay e now else e) := by
  induction l with
  | nil => rfl
  | cons d ds ih =>
    simp only [List.map_cons, List.nodup_cons] at hnd
    obtain ⟨hnotin, hnd2⟩ := hnd
    by_cases hd : d.dayNumber = n
    · have hne : ∀ e ∈ ds, e.dayNumber ≠ n := by
        intro e he heq
        exact hnotin (by
          rw [hd, ← heq]
          exact List.mem_map_of_mem _ he)
      rw [markFirst, if_pos hd, List.map_cons, if_pos hd,
        map_update_id ds n now hne]
    · rw [markFirst, if_neg hd, List.map_cons, if_neg hd, ih hnd2]

theorem markFirst_isCompleted (l : List DailyReading) (n : Nat) (now : Int)
    (hc : ∀ d ∈ l, d.dayNumber = n → d.isCompleted = true) :
    (markFirst l n now).map (fun d => d.isCompleted) =
      l.map (fun d => d.isCompleted) := by
  induction l with
  | nil => rfl
  | cons d ds ih =>
    by_cases hd : d.dayNumber = n
    · rw [markFirst, if_pos hd]
      simp only [List.map_cons]
      rw [hc d (.head _) hd]
      rfl
    · rw [markFirst, if_neg hd]
      simp only [List.map_cons]
      rw [ih (fun e he hn => hc e (.tail _ he) hn)]

theorem markFirst_dayNumbers (l : List DailyReading) (n : Nat) (now : Int) :
    (markFirst l n now).map (fun d => d.dayNumber) =
      l.map (fun d => d.dayNumber) := by
  induction l with
  | nil => rfl
  | cons d ds ih =>
    by_cases hd : d.dayNumber = n
    · rw [markFirst, if_pos hd]
      rfl
    · rw [markFirst, if_neg hd]
      simp only [List.map_cons]
      rw [ih]

theorem markFirst_readings (l : List DailyReading) (n : Nat) (now : Int) :
    (markFirst l n now).map (fun d => d.readings) =
      l.map (fun d => d.readings) := by
  induction l with
  | nil => rfl
  | cons d ds ih =>
    by_cases hd : d.dayNumber = n
    · rw [markFirst, if_pos hd]
      rfl
    · rw [markFirst, if_neg hd]
      simp only [List.map_cons]
      rw [ih]

theorem all_eq_all_map (l : List DailyReading) :
    l.all (fun d => d.isCompleted) =
      (l.map (fun d => d.isCompleted)).all id := by
  induction l with
  | nil => rfl
  | cons a as ih =>
    simp only [List.all_cons, List.map_cons]
    rw [ih]
    rfl

theorem all_isCompleted_congr (l1 l2 : List DailyReading)
    (h : l1.map (fun d => d.isCompleted) = l2.map (fun d => d.isCompleted)) :
    l1.all (fun d => d.isCompleted) = l2.all (fun d => d.isCompleted) := by
  rw [all_eq_all_map, all_eq_all_map, h]

/-- Claim C6: for a plan found by the ownership-scoped lookup, marking a day
complete answers 404 `Day not found in plan` and leaves the store
untouched when the plan has no day with that number; otherwise it sets
that day's `isCompleted` to true and `completedAt` to the current time
(all other days unchanged), and assigns `status = "completed"` exactly
when every day of the updated plan is complete (otherwise the previous
status is kept), persisting the updated plan. -/
theorem markDayComplete_spec (db : PlanDB) (uid id n : Nat) (now : Int)
    (p : ReadingPlan)
    (hfind : db.find? (fun e => e.1 == id && e.2.userId == uid) =
      some (id, p))
    (hnd : (p.dailyReadings.map (fun d => d.dayNumber)).Nodup) :
    ((∀ d ∈ p.dailyReadings, d.dayNumber ≠ n) →
        markDayComplete db uid id n now =
          (db, .error ⟨404, "Day not found in plan"⟩)) ∧
      ((∃ d ∈ p.dailyReadings, d.dayNumber = n) →
        (markDayOnPlan p n now).dailyReadings =
            p.dailyReadings.map (fun e =>
              if e.dayNumber = n then completeDay e now else e) ∧
          (markDayOnPlan p n now).status =
            (if (markDayOnPlan p n now).dailyReadings.all
                (fun d => d.isCompleted) then "completed" else p.status) ∧
          markDayComplete db uid id n now =
            (replaceById db id (markDayOnPlan p n now),
              .ok (markDayOnPlan p n now))) := by
  constructor
  · intro habs
    have hany : p.dailyReadings.any (fun d => d.dayNumber == n) = false := by
      simp only [List.any_eq_false, beq_iff_eq]
      exact habs
    unfold markDayComplete
    rw [show findOwned db id uid = some (id, p) from hfind]
    simp only [hany]
    rfl
  · intro hex
    have hany : p.dailyReadings.any (fun d => d.dayNumber == n) = true := by
      simp only [List.any_eq_true, beq_iff_eq]
      exact hex
    refine ⟨markFirst_eq_map p.dailyReadings n now hnd, rfl, ?_⟩
    unfold markDayComplete
    rw [show findOwned db id uid = some (id, p) from hfind]
    simp only [hany]
    rfl

/-- The concrete store holding `planPub` under id 1, owned by user 3. -/
def db1 : PlanDB := [(1, planPub)]

/-- Witness for C6: the concrete plan `planPub` (days 1 and 2, no
duplicates) under the owner's credentials. -/
theorem markDayComplete_spec_witness :
    ((∀ d ∈ planPub.dailyReadings, d.dayNumber ≠ 1) →
        markDayComplete db1 3 1 1 9 =
          (db1, .error ⟨404, "Day not found in plan"⟩)) ∧
      ((∃ d ∈ planPub.dailyReadings, d.dayNumber = 1) →
        (markDayOnPlan planPub 1 9).dailyReadings =
            planPub.dailyReadings.map (fun e =>
              if e.dayNumber = 1 then completeDay e 9 else e) ∧
          (markDayOnPlan planPub 1 9).status =
            (if (markDayOnPlan planPub 1 9).dailyReadings.all
                (fun d => d.isCompleted) then "completed"
              else planPub.status) ∧
          markDayComplete db1 3 1 1 9 =
            (replaceById db1 1 (markDayOnPlan planPub 1 9),
              .ok (markDayOnPlan planPub 1 9))) :=
  markDayComplete_spec db1 3 1 1 9 planPub rfl (by decide)

/-- The concrete plan of C8's counterexample: its single day is already
complete, but its status was reset to `active` (reachable through
`updatePlan`, whose body accepts any status string). -/
def planC8 : ReadingPlan :=
  { userId := 3, name := "One day", startBook := "Genesis",
    startChapter := 1, endBook := "Genesis", endChapter := some 1,
    startDate := 0, durationInDays := 1,
    dailyReadings := [⟨1, 0, [⟨"Genesis", 1, 1⟩], true, some 0⟩],
    isPublic := false, sharedWith := [], status := "active" }

/-- Claim C8 counterexample: day 1 of `planC8` is already complete, yet
re-marking it changes the plan's status from `active` to `completed`,
so re-marking does not leave the status unchanged on every plan. -/
theorem remark_changes_status_cex :
    (planC8.dailyReadings.map (fun d => d.isCompleted)) = [true] ∧
      planC8.status = "active" ∧
      (markDayOnPlan planC8 1 5).status = "completed" := by decide

/-- Claim C8 (amended): re-marking an already-complete day leaves every day's
`isCompleted` value, every day number and every day's readings unchanged
(only `completedAt` may move), and leaves the plan's status unchanged
provided the status already reflected completion (`status = "completed"`
iff all days complete); without that proviso a fully-complete plan whose
status was manually reset is flipped back to `completed`. -/
theorem remark_idempotent (p : ReadingPlan) (n : Nat) (now : Int)
    (hex : ∃ d ∈ p.dailyReadings, d.dayNumber = n)
    (hc : ∀ d ∈ p.dailyReadings, d.dayNumber = n → d.isCompleted = true)
    (hs : p.status = "completed" ↔
      p.dailyReadings.all (fun d => d.isCompleted) = true) :
    (markDayOnPlan p n now).dailyReadings.map (fun d => d.isCompleted) =
        p.dailyReadings.map (fun d => d.isCompleted) ∧
      (markDayOnPlan p n now).status = p.status ∧
      (markDayOnPlan p n now).dailyReadings.map (fun d => d.dayNumber) =
        p.dailyReadings.map (fun d => d.dayNumber) ∧
      (markDayOnPlan p n now).dailyReadings.map (fun d => d.readings) =
        p.dailyReadings.map (fun d => d.readings) := by
  have hcomp := markFirst_isCompleted p.dailyReadings n now hc
  refine ⟨hcomp, ?_, markFirst_dayNumbers _ _ _, markFirst_readings _ _ _⟩
  show (if (markFirst p.dailyReadings n now).all (fun d => d.isCompleted)
      then "completed" else p.status) = p.status
  have hall := all_isCompleted_congr _ _ hcomp
  by_cases hb : p.dailyReadings.all (fun d => d.isCompleted) = true
  · rw [if_pos (by rw [hall]; exact hb)]
    exact (hs.mpr hb).symm
  · rw [if_neg (by rw [hall]; exact hb)]

/-- A fully completed plan whose status agrees with its completion
state, instantiating the re-marking theorem. -/
def planDone : ReadingPlan :=
  { userId := 3, name := "Done", startBook := "Genesis", startChapter := 1,
    endBook := "Genesis", endChapter := some 2, startDate := 0,
    durationInDays := 2,
    dailyReadings :=
      [⟨1, 0, [⟨"Genesis", 1, 1⟩], true, some 1⟩,
       ⟨2, 86400000, [⟨"Genesis", 2, 2⟩], true, some 2⟩],
    isPublic := false, sharedWith := [], status := "completed" }

/-- Witness for C8's amended theorem: re-marking day 1 of the completed
plan `planDone`. -/
theorem remark_idempotent_witness :
    (markDayOnPlan planDone 1 7).dailyReadings.map
          (fun d => d.isCompleted) =
        planDone.dailyReadings.map (fun d => d.isCompleted) ∧
      (markDayOnPlan planDone 1 7).status = planDone.status ∧
      (markDayOnPlan planDone 1 7).dailyReadings.map
          (fun d => d.dayNumber) =
        planDone.dailyReadings.map (fun d => d.dayNumber) ∧
      (markDayOnPlan planDone 1 7).dailyReadings.map
          (fun d => d.readings) =
        planDone.dailyReadings.map (fun d => d.readings) :=
  remark_idempotent planDone 1 7 (by decide) (by decide)
    (by constructor <;> intro <;> rfl)

/-- Claim C9: the streak update of `logReading` preserves the invariant
`current ≤ longest`: every branch either leaves the counters unchanged
or raises `longest` to at least the new `current`. -/
theorem logReading_streak_invariant (s : Streak) (today : Int)
    (h : s.current ≤ s.longest) :
    (updateStreak s today).current ≤ (updateStreak s today).longest := by
  unfold updateStreak
  cases s.lastDate with
  | none => exact le_max_right _ _
  | some last =>
    dsimp only
    by_cases h1 : last = today
    · rw [if_pos h1]
      exact h
    · rw [if_neg h1]
      by_cases h2 : last = today - 86400000
      · rw [if_pos h2]
        exact le_max_right _ _
      · rw [if_neg h2]
        by_cases h3 : last < today - 86400000
        · rw [if_pos h3]
          exact le_max_right _ _
        · rw [if_neg h3]
          exact h

/-- Witness for C9: a concrete streak of 2/5 read again the next day. -/
theorem logReading_streak_invariant_witness :
    (updateStreak ⟨2, 5, some 0⟩ 86400000).current ≤
      (updateStreak ⟨2, 5, some 0⟩ 86400000).longest :=
  logReading_streak_invariant ⟨2, 5, some 0⟩ 86400000 (by decide)

/-- Claim C10: every mutation endpoint looks the plan up with the owner in
the query, so an existing plan owned by someone else yields the same
404-class response as a missing plan — never a 403 — and the store is
left unchanged by all three operations. -/
theorem foreign_plan_not_found (db : PlanDB) (uid id : Nat)
    (u : PlanUpdates) (n : Nat) (now : Int)
    (hex : ∃ e ∈ db, e.1 = id)
    (hforeign : ∀ e ∈ db, e.1 = id → e.2.userId ≠ uid) :
    updatePlan db uid id u =
        (db, .error ⟨404, "Plan not found or access denied"⟩) ∧
      deletePlan db uid id =
        (db, .error ⟨404, "Plan not found or access denied"⟩) ∧
      markDayComplete db uid id n now =
        (db, .error ⟨404, "Plan not found"⟩) := by
  have hnone : findOwned db id uid = none := by
    rw [findOwned, List.find?_eq_none]
    intro e he
    simp only [Bool.and_eq_true, beq_iff_eq, not_and]
    exact fun h1 h2 => hforeign e he h1 h2
  refine ⟨?_, ?_, ?_⟩
  · unfold updatePlan
    rw [hnone]
  · unfold deletePlan
    rw [hnone]
  · unfold markDayComplete
    rw [hnone]

/-- Witness for C10: the plan of user 3 under id 1, requested by user
9. -/
theorem foreign_plan_not_found_witness :
    updatePlan db1 9 1 ⟨some "x", none, none⟩ =
        (db1, .error ⟨404, "Plan not found or access denied"⟩) ∧
      deletePlan db1 9 1 =
        (db1, .error ⟨404, "Plan not found or access denied"⟩) ∧
      markDayComplete db1 9 1 1 0 =
        (db1, .error ⟨404, "Plan not found"⟩) :=
  foreign_plan_not_found db1 9 1 ⟨some "x", none, none⟩ 1 0
    ⟨(1, planPub), by decide, rfl⟩ (by decide)

end EOTC
